import Mathlib

/-!
Shallow embedding of the core simulation of the game in src/game.js:
bird kinematics, obstacle (pipe) spawning, scrolling, scoring, high-score
persistence, collision detection and the game-phase state machine.
JavaScript numbers are modelled as rationals, the persistent score store
as the list of values written to it, and the injected random source as a
list of rationals consumed from the head.
-/

namespace Ashlee

/-- TARGET_FPS in src/game.js. -/
def TARGET_FPS : ℚ := 60

/-- FRAME_TIME = 1000 / TARGET_FPS. -/
def FRAME_TIME : ℚ := 1000 / TARGET_FPS

/-- GRAVITY = 0.55. -/
def GRAVITY : ℚ := 11 / 20

/-- FLAP_STRENGTH = -7.5. -/
def FLAP_STRENGTH : ℚ := -15 / 2

/-- MAX_FALL_SPEED = 10. -/
def MAX_FALL_SPEED : ℚ := 10

/-- PIPE_SPEED = 3.2. -/
def PIPE_SPEED : ℚ := 16 / 5

/-- PIPE_GAP = 125. -/
def PIPE_GAP : ℚ := 125

/-- PIPE_WIDTH = 80. -/
def PIPE_WIDTH : ℚ := 80

/-- PIPE_SPACING = 200. -/
def PIPE_SPACING : ℚ := 200

/-- BIRD_SIZE = 40. -/
def BIRD_SIZE : ℚ := 40

/-- The bird record: position, vertical velocity, derived rotation. -/
structure Bird where
  x : ℚ
  y : ℚ
  velocity : ℚ
  rotation : ℚ
  deriving DecidableEq

/-- A pipe (obstacle): horizontal position, gap-top height, passed flag. -/
structure Pipe where
  x : ℚ
  topHeight : ℚ
  passed : Bool
  deriving DecidableEq

/-- The gameState variable: splash, start, playing, gameover. -/
inductive GameState where
  | splash
  | start
  | playing
  | gameover
  deriving DecidableEq

/-- The whole mutable state of game.js that the simulation core touches.
canvas.width and canvas.height are carried as fields (resizing is out of
scope), rands is the injected random source (Math.random values, consumed
from the head), and storeWrites records every value passed to
localStorage.setItem in order. -/
structure Game where
  width : ℚ
  height : ℚ
  bird : Bird
  pipes : List Pipe
  score : ℕ
  highScore : ℕ
  gameState : GameState
  isNewHighScore : Bool
  rands : List ℚ
  storeWrites : List ℕ
  deriving DecidableEq

/-- groundY = canvas.height - 80. -/
def groundY (g : Game) : ℚ := g.height - 80

/-- resetGame: reset bird, pipes, score and the new-high-score flag.
The high score is not touched. -/
def resetGame (g : Game) : Game :=
  { g with
    bird := { x := g.width * (1/5), y := g.height / 2, velocity := 0, rotation := 0 }
    pipes := []
    score := 0
    isNewHighScore := false }

/-- handleInput: the phase state machine driven by the primary input. -/
def handleInput (g : Game) : Game :=
  match g.gameState with
  | .splash => { g with gameState := .start }
  | .start => { g with gameState := .playing,
                       bird := { g.bird with velocity := FLAP_STRENGTH } }
  | .playing => { g with bird := { g.bird with velocity := FLAP_STRENGTH } }
  | .gameover => { resetGame g with gameState := .start }

/-- spawnPipe: append a pipe at x = canvas.width with a random gap top
height, consuming one value of the random source. -/
def spawnPipe (g : Game) : Game :=
  let minHeight : ℚ := 80
  let maxHeight : ℚ := groundY g - PIPE_GAP - minHeight
  let topHeight : ℚ := g.rands.headD 0 * (maxHeight - minHeight) + minHeight
  { g with
    pipes := g.pipes ++ [{ x := g.width, topHeight := topHeight, passed := false }]
    rands := g.rands.tail }

/-- spawnFirstPipe: like spawnPipe but at x = canvas.width * 0.65. -/
def spawnFirstPipe (g : Game) : Game :=
  let minHeight : ℚ := 80
  let maxHeight : ℚ := groundY g - PIPE_GAP - minHeight
  let topHeight : ℚ := g.rands.headD 0 * (maxHeight - minHeight) + minHeight
  { g with
    pipes := g.pipes ++ [{ x := g.width * (13/20), topHeight := topHeight, passed := false }]
    rands := g.rands.tail }

/-- The delta multiplier dt = Math.min(deltaTime, 100) / FRAME_TIME. -/
def dtOf (d : ℚ) : ℚ := min d 100 / FRAME_TIME

/-- The bird physics of update: gravity, fall-speed clamp, position and
rotation, all scaled by the delta multiplier. -/
def physicsStep (d : ℚ) (g : Game) : Game :=
  let dt := dtOf d
  let v1 := g.bird.velocity + GRAVITY * dt
  let v2 := if v1 > MAX_FALL_SPEED then MAX_FALL_SPEED else v1
  { g with bird :=
    { g.bird with
      velocity := v2
      y := g.bird.y + v2 * dt
      rotation := min (max (v2 * 4) (-25)) 90 } }

/-- Spawn the first pipe when the pipe list is empty. -/
def maybeSpawnFirst (g : Game) : Game :=
  if g.pipes.isEmpty then spawnFirstPipe g else g

/-- The spawn condition of update: the list is empty or the last pipe has
scrolled past canvas.width - PIPE_SPACING. -/
def shouldSpawn (g : Game) : Bool :=
  match g.pipes.getLast? with
  | none => true
  | some p => decide (p.x < g.width - PIPE_SPACING)

/-- Spawn a new pipe when the spawn condition holds. -/
def maybeSpawn (g : Game) : Game :=
  if shouldSpawn g then spawnPipe g else g

/-- The score-related fields threaded through the pipe loop of update. -/
structure ScoreAcc where
  score : ℕ
  highScore : ℕ
  isNewHighScore : Bool
  storeWrites : List ℕ
  deriving DecidableEq

/-- The scoring body of the pipe loop, for one pipe whose position has
already been moved: mark it passed and bump score, high score, flag and
persistence when its right edge is left of the bird. -/
def scorePipe (birdX : ℚ) (p : Pipe) (a : ScoreAcc) : Pipe × ScoreAcc :=
  if !p.passed && decide (p.x + PIPE_WIDTH < birdX) then
    let sc := a.score + 1
    let a2 :=
      if sc > a.highScore then
        { score := sc, highScore := sc, isNewHighScore := true,
          storeWrites := a.storeWrites ++ [sc] }
      else
        { a with score := sc }
    ({ p with passed := true }, a2)
  else
    (p, a)

/-- The pipe loop of update: iterate from the last index down to 0, move
each pipe left, run the scoring body, and drop the pipe when its right
edge is left of x = 0. Processing the tail of the list first mirrors the
descending index order of the JavaScript loop. -/
def processPipes (birdX dt : ℚ) : List Pipe → ScoreAcc → List Pipe × ScoreAcc
  | [], a => ([], a)
  | p :: rest, a =>
    let r := processPipes birdX dt rest a
    let pm := { p with x := p.x - PIPE_SPEED * dt }
    let s := scorePipe birdX pm r.2
    if s.1.x + PIPE_WIDTH < 0 then (r.1, s.2) else (s.1 :: r.1, s.2)

/-- The pipe loop of update wrapped over the game record. -/
def pipesStep (d : ℚ) (g : Game) : Game :=
  let r := processPipes g.bird.x (dtOf d) g.pipes
    { score := g.score, highScore := g.highScore,
      isNewHighScore := g.isNewHighScore, storeWrites := g.storeWrites }
  { g with pipes := r.1, score := r.2.score, highScore := r.2.highScore,
           isNewHighScore := r.2.isNewHighScore, storeWrites := r.2.storeWrites }

/-- The collision predicate of checkCollisions: ground or ceiling with the
full half size, or overlap with a pipe using the 5 pixel inset hitbox and
leaving the gap. -/
def collides (g : Game) : Bool :=
  decide (g.bird.y + BIRD_SIZE / 2 > groundY g) ||
  decide (g.bird.y - BIRD_SIZE / 2 < 0) ||
  g.pipes.any fun p =>
    decide (g.bird.x + BIRD_SIZE / 2 - 5 > p.x) &&
    decide (g.bird.x - BIRD_SIZE / 2 + 5 < p.x + PIPE_WIDTH) &&
    (decide (g.bird.y - BIRD_SIZE / 2 + 5 < p.topHeight) ||
     decide (g.bird.y + BIRD_SIZE / 2 - 5 > p.topHeight + PIPE_GAP))

/-- checkCollisions: any violation sets gameState to gameover. -/
def checkCollisions (g : Game) : Game :=
  if collides g then { g with gameState := .gameover } else g

/-- update(deltaTime): a no-op outside the playing phase; otherwise spawn
the first pipe if needed, run bird physics, run the spawn check, run the
pipe loop and finally collision detection. Celebration particles are
cosmetic and not modelled. -/
def update (d : ℚ) (g : Game) : Game :=
  if g.gameState = .playing then
    checkCollisions (pipesStep d (maybeSpawn (physicsStep d (maybeSpawnFirst g))))
  else g

/-- An externally driven operation: one update call with an elapsed-time
delta, or one primary-input signal. -/
inductive Op where
  | update (d : ℚ)
  | input
  deriving DecidableEq

/-- One step of the driver loop. -/
def step (g : Game) : Op → Game
  | .update d => update d g
  | .input => handleInput g

/-- Run a sequence of operations. -/
def run (g : Game) (ops : List Op) : Game := ops.foldl step g

/-- The state produced by init: resetGame applied to a fresh record in
the splash phase, with the stored high score loaded. -/
def initGame (w h : ℚ) (storedHS : ℕ) (rands : List ℚ) : Game :=
  resetGame
    { width := w, height := h
      bird := { x := 0, y := 0, velocity := 0, rotation := 0 }
      pipes := [], score := 0, highScore := storedHS
      gameState := .splash, isNewHighScore := false
      rands := rands, storeWrites := [] }

/-- Reachable states: an initial state with a non-negative canvas width,
closed under driver steps. -/
inductive Reachable : Game → Prop
  | init (w h : ℚ) (storedHS : ℕ) (rands : List ℚ) (hw : 0 ≤ w) :
      Reachable (initGame w h storedHS rands)
  | step (g : Game) (op : Op) : Reachable g → Reachable (step g op)

/-! Derived descriptions of the pipe loop body, shorthand for the
corresponding pieces of update used to state its properties. -/

/-- Effect of one pipe crossing on the score fields: increment score; on
a new record also raise the high score, set the flag and persist. -/
def crossEffect (a : ScoreAcc) : ScoreAcc :=
  if a.score + 1 > a.highScore then
    { score := a.score + 1, highScore := a.score + 1, isNewHighScore := true,
      storeWrites := a.storeWrites ++ [a.score + 1] }
  else
    { a with score := a.score + 1 }

/-- The loop marks this pipe passed on this tick: not yet passed and its
right edge ends the tick left of the bird. -/
def crossesB (birdX dt : ℚ) (p : Pipe) : Bool :=
  !p.passed && decide (p.x - PIPE_SPEED * dt + PIPE_WIDTH < birdX)

/-- Per-pipe effect of the loop on the pipe itself: move left by
PIPE_SPEED * dt and set the passed flag when the right edge is left of
the bird. -/
def movedPipe (birdX dt : ℚ) (p : Pipe) : Pipe :=
  { x := p.x - PIPE_SPEED * dt, topHeight := p.topHeight,
    passed := p.passed || decide (p.x - PIPE_SPEED * dt + PIPE_WIDTH < birdX) }

/-- The loop keeps this (already moved) pipe: not fully off screen. -/
def keepB (p : Pipe) : Bool := !decide (p.x + PIPE_WIDTH < 0)

/-! Characterization of the pipe loop. -/

theorem scorePipe_fst (birdX : ℚ) (p : Pipe) (a : ScoreAcc) :
    (scorePipe birdX p a).1 =
      { p with passed := p.passed || decide (p.x + PIPE_WIDTH < birdX) } := by
  rcases p with ⟨px, pt, pp⟩
  rcases pp with _ | _
  · simp only [scorePipe]
    split <;> simp_all
  · simp [scorePipe]

theorem scorePipe_snd (birdX : ℚ) (p : Pipe) (a : ScoreAcc) :
    (scorePipe birdX p a).2 =
      if !p.passed && decide (p.x + PIPE_WIDTH < birdX) then crossEffect a else a := by
  simp only [scorePipe, crossEffect]
  split <;> rfl

theorem processPipes_fst (birdX dt : ℚ) (l : List Pipe) (a : ScoreAcc) :
    (processPipes birdX dt l a).1 = (l.map (movedPipe birdX dt)).filter keepB := by
  induction l generalizing a with
  | nil => rfl
  | cons p rest ih =>
    simp only [processPipes, scorePipe_fst, List.map_cons, List.filter_cons]
    by_cases h : p.x - PIPE_SPEED * dt + PIPE_WIDTH < 0
    · rw [if_pos h, ih]
      have : keepB (movedPipe birdX dt p) = false := by
        simp [keepB, movedPipe, h]
      rw [this]
      rfl
    · rw [if_neg h, ih]
      have : keepB (movedPipe birdX dt p) = true := by
        simp [keepB, movedPipe, h]
      rw [this]
      rfl

theorem processPipes_snd (birdX dt : ℚ) (l : List Pipe) (a : ScoreAcc) :
    (processPipes birdX dt l a).2 =
      crossEffect^[l.countP (crossesB birdX dt)] a := by
  induction l generalizing a with
  | nil => rfl
  | cons p rest ih =>
    have h2 : (processPipes birdX dt (p :: rest) a).2 =
        (scorePipe birdX { p with x := p.x - PIPE_SPEED * dt }
          (processPipes birdX dt rest a).2).2 := by
      simp only [processPipes]
      split <;> rfl
    rw [h2, scorePipe_snd, ih, List.countP_cons]
    rcases hc : crossesB birdX dt p with _ | _
    · have : (!p.passed && decide (p.x - PIPE_SPEED * dt + PIPE_WIDTH < birdX)) = false := hc
      simp [this, hc]
    · have : (!p.passed && decide (p.x - PIPE_SPEED * dt + PIPE_WIDTH < birdX)) = true := hc
      simp [this, hc, Function.iterate_succ_apply']

/-! Facts about iterating the crossing effect. -/

theorem crossEffect_score (a : ScoreAcc) : (crossEffect a).score = a.score + 1 := by
  unfold crossEffect
  split <;> rfl

theorem crossEffect_iterate_score (k : ℕ) (a : ScoreAcc) :
    (crossEffect^[k] a).score = a.score + k := by
  induction k with
  | zero => rfl
  | succ n ih => rw [Function.iterate_succ_apply', crossEffect_score, ih, Nat.add_assoc]

theorem crossEffect_highScore_le (a : ScoreAcc) : a.highScore ≤ (crossEffect a).highScore := by
  unfold crossEffect
  split
  · exact Nat.le_of_lt (by assumption)
  · exact Nat.le_refl _

theorem crossEffect_iterate_highScore_le (k : ℕ) (a : ScoreAcc) :
    a.highScore ≤ (crossEffect^[k] a).highScore := by
  induction k with
  | zero => exact Nat.le_refl _
  | succ n ih =>
    rw [Function.iterate_succ_apply']
    exact Nat.le_trans ih (crossEffect_highScore_le _)

theorem crossEffect_flag_mono (a : ScoreAcc) (h : a.isNewHighScore = true) :
    (crossEffect a).isNewHighScore = true := by
  unfold crossEffect
  split
  · rfl
  · exact h

theorem crossEffect_iterate_flag_mono (k : ℕ) (a : ScoreAcc) (h : a.isNewHighScore = true) :
    (crossEffect^[k] a).isNewHighScore = true := by
  induction k with
  | zero => exact h
  | succ n ih =>
    rw [Function.iterate_succ_apply']
    exact crossEffect_flag_mono _ ih

theorem crossEffect_flag_false (a : ScoreAcc) (h : (crossEffect a).isNewHighScore = false) :
    (crossEffect a).score ≤ (crossEffect a).highScore := by
  unfold crossEffect at h ⊢
  by_cases hgt : a.score + 1 > a.highScore
  · rw [if_pos hgt] at h
    exact absurd h (by simp)
  · rw [if_neg hgt] at h ⊢
    simpa using Nat.le_of_not_lt hgt

theorem crossEffect_iterate_flag_false (k : ℕ) (a : ScoreAcc)
    (ha : a.isNewHighScore = false → a.score ≤ a.highScore)
    (h : (crossEffect^[k] a).isNewHighScore = false) :
    (crossEffect^[k] a).score ≤ (crossEffect^[k] a).highScore := by
  cases k with
  | zero => exact ha h
  | succ n =>
    rw [Function.iterate_succ_apply'] at h ⊢
    exact crossEffect_flag_false _ h

/-! Field preservation lemmas for the pieces of update. -/

theorem checkCollisions_bird (g : Game) : (checkCollisions g).bird = g.bird := by
  unfold checkCollisions
  split <;> rfl

theorem checkCollisions_pipes (g : Game) : (checkCollisions g).pipes = g.pipes := by
  unfold checkCollisions
  split <;> rfl

theorem checkCollisions_score (g : Game) : (checkCollisions g).score = g.score := by
  unfold checkCollisions
  split <;> rfl

theorem checkCollisions_highScore (g : Game) : (checkCollisions g).highScore = g.highScore := by
  unfold checkCollisions
  split <;> rfl

theorem checkCollisions_flag (g : Game) :
    (checkCollisions g).isNewHighScore = g.isNewHighScore := by
  unfold checkCollisions
  split <;> rfl

theorem checkCollisions_writes (g : Game) :
    (checkCollisions g).storeWrites = g.storeWrites := by
  unfold checkCollisions
  split <;> rfl

theorem checkCollisions_width (g : Game) : (checkCollisions g).width = g.width := by
  unfold checkCollisions
  split <;> rfl

theorem maybeSpawnFirst_bird (g : Game) : (maybeSpawnFirst g).bird = g.bird := by
  unfold maybeSpawnFirst
  split <;> rfl

theorem maybeSpawnFirst_score (g : Game) : (maybeSpawnFirst g).score = g.score := by
  unfold maybeSpawnFirst
  split <;> rfl

theorem maybeSpawnFirst_highScore (g : Game) :
    (maybeSpawnFirst g).highScore = g.highScore := by
  unfold maybeSpawnFirst
  split <;> rfl

theorem maybeSpawnFirst_flag (g : Game) :
    (maybeSpawnFirst g).isNewHighScore = g.isNewHighScore := by
  unfold maybeSpawnFirst
  split <;> rfl

theorem maybeSpawnFirst_writes (g : Game) :
    (maybeSpawnFirst g).storeWrites = g.storeWrites := by
  unfold maybeSpawnFirst
  split <;> rfl

theorem maybeSpawnFirst_width (g : Game) : (maybeSpawnFirst g).width = g.width := by
  unfold maybeSpawnFirst
  split <;> rfl

theorem maybeSpawn_bird (g : Game) : (maybeSpawn g).bird = g.bird := by
  unfold maybeSpawn
  split <;> rfl

theorem maybeSpawn_score (g : Game) : (maybeSpawn g).score = g.score := by
  unfold maybeSpawn
  split <;> rfl

theorem maybeSpawn_highScore (g : Game) : (maybeSpawn g).highScore = g.highScore := by
  unfold maybeSpawn
  split <;> rfl

theorem maybeSpawn_flag (g : Game) : (maybeSpawn g).isNewHighScore = g.isNewHighScore := by
  unfold maybeSpawn
  split <;> rfl

theorem maybeSpawn_writes (g : Game) : (maybeSpawn g).storeWrites = g.storeWrites := by
  unfold maybeSpawn
  split <;> rfl

theorem maybeSpawn_width (g : Game) : (maybeSpawn g).width = g.width := by
  unfold maybeSpawn
  split <;> rfl

theorem physicsStep_velocity (d : ℚ) (g : Game) :
    (physicsStep d g).bird.velocity =
      min (g.bird.velocity + GRAVITY * dtOf d) MAX_FALL_SPEED := by
  show (if g.bird.velocity + GRAVITY * dtOf d > MAX_FALL_SPEED then MAX_FALL_SPEED
        else g.bird.velocity + GRAVITY * dtOf d) = _
  rcases le_or_lt (g.bird.velocity + GRAVITY * dtOf d) MAX_FALL_SPEED with h | h
  · rw [if_neg (not_lt.mpr h), min_eq_left h]
  · rw [if_pos h, min_eq_right h.le]

theorem physicsStep_y (d : ℚ) (g : Game) :
    (physicsStep d g).bird.y =
      g.bird.y + min (g.bird.velocity + GRAVITY * dtOf d) MAX_FALL_SPEED * dtOf d := by
  show g.bird.y + (if g.bird.velocity + GRAVITY * dtOf d > MAX_FALL_SPEED then MAX_FALL_SPEED
        else g.bird.velocity + GRAVITY * dtOf d) * dtOf d = _
  rcases le_or_lt (g.bird.velocity + GRAVITY * dtOf d) MAX_FALL_SPEED with h | h
  · rw [if_neg (not_lt.mpr h), min_eq_left h]
  · rw [if_pos h, min_eq_right h.le]

theorem physicsStep_birdX (d : ℚ) (g : Game) : (physicsStep d g).bird.x = g.bird.x := rfl

theorem pipesStep_pipes (d : ℚ) (g : Game) :
    (pipesStep d g).pipes =
      (g.pipes.map (movedPipe g.bird.x (dtOf d))).filter keepB := by
  simp [pipesStep, processPipes_fst]

theorem pipesStep_acc (d : ℚ) (g : Game) :
    (⟨(pipesStep d g).score, (pipesStep d g).highScore, (pipesStep d g).isNewHighScore,
      (pipesStep d g).storeWrites⟩ : ScoreAcc) =
      crossEffect^[g.pipes.countP (crossesB g.bird.x (dtOf d))]
        ⟨g.score, g.highScore, g.isNewHighScore, g.storeWrites⟩ := by
  simp [pipesStep, processPipes_snd]

theorem update_not_playing (d : ℚ) (g : Game) (h : ¬g.gameState = .playing) :
    update d g = g := by
  simp [update, h]

theorem update_playing (d : ℚ) (g : Game) (h : g.gameState = .playing) :
    update d g =
      checkCollisions (pipesStep d (maybeSpawn (physicsStep d (maybeSpawnFirst g)))) := by
  simp [update, h]

theorem physicsStep_pipes (d : ℚ) (g : Game) : (physicsStep d g).pipes = g.pipes := rfl

theorem physicsStep_score (d : ℚ) (g : Game) : (physicsStep d g).score = g.score := rfl

theorem physicsStep_highScore (d : ℚ) (g : Game) :
    (physicsStep d g).highScore = g.highScore := rfl

theorem physicsStep_flag (d : ℚ) (g : Game) :
    (physicsStep d g).isNewHighScore = g.isNewHighScore := rfl

theorem physicsStep_writes (d : ℚ) (g : Game) :
    (physicsStep d g).storeWrites = g.storeWrites := rfl

theorem physicsStep_width (d : ℚ) (g : Game) : (physicsStep d g).width = g.width := rfl

theorem pipesStep_bird (d : ℚ) (g : Game) : (pipesStep d g).bird = g.bird := rfl

theorem pipesStep_width (d : ℚ) (g : Game) : (pipesStep d g).width = g.width := rfl

theorem checkCollisions_gameState (g : Game) (h : g.gameState = .playing) :
    (checkCollisions g).gameState = if collides g then .gameover else .playing := by
  unfold checkCollisions
  split <;> simp [h]

/-! The state invariant maintained by the driver loop. -/

/-- The delta multiplier never exceeds 6 (the 100 ms clamp over the
16.67 ms nominal frame). -/
theorem dtOf_le_six (d : ℚ) : dtOf d ≤ 6 := by
  unfold dtOf FRAME_TIME TARGET_FPS
  rw [div_le_iff₀ (by norm_num)]
  calc min d 100 ≤ 100 := min_le_right d 100
  _ = 6 * (1000 / 60) := by norm_num

/-- Pipes are listed left to right with gaps wider than PIPE_SPACING. -/
def Spaced (l : List Pipe) : Prop :=
  l.Pairwise fun p q => p.x + PIPE_SPACING < q.x

/-- Invariant of reachable states: non-negative canvas width, the bird
anchored at a fifth of the width, pipes spaced out by more than
PIPE_SPACING, every unpassed pipe with its right edge not yet left of the
bird, and score at most the high score while the flag is down. -/
def Inv (g : Game) : Prop :=
  0 ≤ g.width ∧
  g.bird.x = g.width * (1/5) ∧
  Spaced g.pipes ∧
  (∀ p ∈ g.pipes, p.passed = false → g.bird.x ≤ p.x + PIPE_WIDTH) ∧
  (g.isNewHighScore = false → g.score ≤ g.highScore)

theorem spaced_lt_of_getLast (l : List Pipe) (q : Pipe) (hsp : Spaced l)
    (hq : l.getLast? = some q) :
    ∀ p ∈ l, p = q ∨ p.x + PIPE_SPACING < q.x := by
  induction l with
  | nil => simp at hq
  | cons a t ih =>
    intro p hp
    cases t with
    | nil =>
      simp at hq hp
      subst hq hp
      exact Or.inl rfl
    | cons b t2 =>
      rw [List.getLast?_cons_cons] at hq
      rcases List.pairwise_cons.mp hsp with ⟨ha, hsp2⟩
      have hqmem : q ∈ b :: t2 := by
        have : (b :: t2) ≠ [] := by simp
        rcases List.getLast?_eq_getLast (b :: t2) this ▸ hq with h2
        exact Option.some_injective _ h2 ▸ List.getLast_mem this
      rcases List.mem_cons.mp hp with h | h
      · exact Or.inr (h ▸ ha q hqmem)
      · exact ih hsp2 hq p h

theorem spaced_append_one (l : List Pipe) (w th : ℚ) (hsp : Spaced l)
    (hlast : ∀ q, l.getLast? = some q → q.x < w - PIPE_SPACING) :
    Spaced (l ++ [{ x := w, topHeight := th, passed := false }]) := by
  rw [Spaced, List.pairwise_append]
  refine ⟨hsp, List.pairwise_singleton _ _, ?_⟩
  intro p hp p2 hp2
  simp only [List.mem_singleton] at hp2
  subst hp2
  cases hq : l.getLast? with
  | none =>
    rw [List.getLast?_eq_none_iff] at hq
    subst hq
    simp at hp
  | some q =>
    have hqx := hlast q hq
    rcases spaced_lt_of_getLast l q hsp hq p hp with h | h
    · subst h
      simpa using by linarith
    · show p.x + PIPE_SPACING < w
      have hq2 : (0:ℚ) < PIPE_SPACING := by norm_num [PIPE_SPACING]
      linarith

/-- At most one pipe can newly cross the bird in a single tick: unpassed
pipes still have their right edge at or right of the bird, the scroll
distance is at most PIPE_SPEED * 6 < PIPE_SPACING, and pipes are spaced
by more than PIPE_SPACING. -/
theorem countP_crossers_le_one (bx dt : ℚ) (l : List Pipe) (hdt : dt ≤ 6)
    (hsp : Spaced l) (hnp : ∀ p ∈ l, p.passed = false → bx ≤ p.x + PIPE_WIDTH) :
    l.countP (crossesB bx dt) ≤ 1 := by
  induction l with
  | nil => simp
  | cons p rest ih =>
    rcases List.pairwise_cons.mp hsp with ⟨hhead, htail⟩
    rw [List.countP_cons]
    rcases hc : crossesB bx dt p with _ | _
    · simpa [hc] using ih htail fun q hq => hnp q (List.mem_cons_of_mem p hq)
    · simp only [crossesB, Bool.and_eq_true, Bool.not_eq_true', decide_eq_true_eq] at hc
      obtain ⟨hpp, hx⟩ := hc
      have hbp := hnp p (List.mem_cons_self p rest) hpp
      have hzero : rest.countP (crossesB bx dt) = 0 := by
        rw [List.countP_eq_zero]
        intro q hq hcq
        simp only [crossesB, Bool.and_eq_true, Bool.not_eq_true', decide_eq_true_eq] at hcq
        obtain ⟨hqp, hqx⟩ := hcq
        have hrel := hhead q hq
        rw [PIPE_SPACING] at hrel
        rw [PIPE_SPEED] at hx hqx
        rw [PIPE_WIDTH] at hbp hx hqx
        have hq2 := hnp q (List.mem_cons_of_mem p hq) hqp
        rw [PIPE_WIDTH] at hq2
        linarith
      simp [hzero]

theorem spawnPipe_pipes (g : Game) :
    ∃ th, (spawnPipe g).pipes =
      g.pipes ++ [{ x := g.width, topHeight := th, passed := false }] :=
  ⟨_, rfl⟩

theorem spawnFirstPipe_pipes (g : Game) :
    ∃ th, (spawnFirstPipe g).pipes =
      g.pipes ++ [{ x := g.width * (13/20), topHeight := th, passed := false }] :=
  ⟨_, rfl⟩

theorem preSpawn_fields (d : ℚ) (g : Game) :
    (maybeSpawn (physicsStep d (maybeSpawnFirst g))).bird.x = g.bird.x ∧
    (maybeSpawn (physicsStep d (maybeSpawnFirst g))).width = g.width ∧
    (maybeSpawn (physicsStep d (maybeSpawnFirst g))).score = g.score ∧
    (maybeSpawn (physicsStep d (maybeSpawnFirst g))).highScore = g.highScore ∧
    (maybeSpawn (physicsStep d (maybeSpawnFirst g))).isNewHighScore = g.isNewHighScore ∧
    (maybeSpawn (physicsStep d (maybeSpawnFirst g))).storeWrites = g.storeWrites := by
  refine ⟨?_, ?_, ?_, ?_, ?_, ?_⟩ <;>
    simp [maybeSpawn_bird, maybeSpawn_width, maybeSpawn_score, maybeSpawn_highScore,
      maybeSpawn_flag, maybeSpawn_writes, physicsStep_birdX, physicsStep_width,
      physicsStep_score, physicsStep_highScore, physicsStep_flag, physicsStep_writes,
      maybeSpawnFirst_bird, maybeSpawnFirst_width, maybeSpawnFirst_score,
      maybeSpawnFirst_highScore, maybeSpawnFirst_flag, maybeSpawnFirst_writes]

/-- The pipe list fed to the scoring loop (after the two spawn sites) is
still spaced out, and its unpassed pipes still have their right edge at
or right of the bird. -/
theorem inv_pre_loop (d : ℚ) (g : Game) (hInv : Inv g) :
    Spaced (maybeSpawn (physicsStep d (maybeSpawnFirst g))).pipes ∧
    ∀ p ∈ (maybeSpawn (physicsStep d (maybeSpawnFirst g))).pipes,
      p.passed = false → g.bird.x ≤ p.x + PIPE_WIDTH := by
  obtain ⟨hw, hbx, hsp, hnp, _⟩ := hInv
  have h1 : Spaced (maybeSpawnFirst g).pipes ∧
      ∀ p ∈ (maybeSpawnFirst g).pipes, p.passed = false →
        g.bird.x ≤ p.x + PIPE_WIDTH := by
    unfold maybeSpawnFirst
    by_cases he : g.pipes.isEmpty = true
    · rw [if_pos he]
      have hge : g.pipes = [] := by simpa using he
      obtain ⟨th, hth⟩ := spawnFirstPipe_pipes g
      rw [hth, hge, List.nil_append]
      constructor
      · exact List.pairwise_singleton _ _
      · intro p hp hpass
        simp only [List.mem_singleton] at hp
        subst hp
        show g.bird.x ≤ g.width * (13/20) + PIPE_WIDTH
        rw [hbx, PIPE_WIDTH]
        linarith
    · rw [if_neg he]
      exact ⟨hsp, hnp⟩
  have h2p : (physicsStep d (maybeSpawnFirst g)).pipes = (maybeSpawnFirst g).pipes :=
    physicsStep_pipes d _
  unfold maybeSpawn
  by_cases hs2 : shouldSpawn (physicsStep d (maybeSpawnFirst g)) = true
  · rw [if_pos hs2]
    obtain ⟨th2, hth2⟩ := spawnPipe_pipes (physicsStep d (maybeSpawnFirst g))
    rw [hth2, h2p]
    constructor
    · apply spaced_append_one _ _ _ h1.1
      intro q hq
      simp only [shouldSpawn, h2p, hq, decide_eq_true_eq] at hs2
      exact hs2
    · intro p hp hpass
      rcases List.mem_append.mp hp with hold | hnew
      · exact h1.2 p hold hpass
      · simp only [List.mem_singleton] at hnew
        subst hnew
        show g.bird.x ≤ (physicsStep d (maybeSpawnFirst g)).width + PIPE_WIDTH
        rw [physicsStep_width, maybeSpawnFirst_width, hbx, PIPE_WIDTH]
        linarith
  · rw [if_neg hs2, h2p]
    exact h1

/-- The invariant is preserved by every update call. -/
theorem inv_update (d : ℚ) (g : Game) (hInv : Inv g) : Inv (update d g) := by
  by_cases hp : g.gameState = .playing
  · have hInv2 := hInv
    obtain ⟨hw, hbx, _, _, hfs⟩ := hInv2
    obtain ⟨hsp2, hnp2⟩ := inv_pre_loop d g hInv
    obtain ⟨hbx2, hwidth2, hsc2, hhs2, hfl2, hwr2⟩ := preSpawn_fields d g
    rw [update_playing d g hp]
    set gp := maybeSpawn (physicsStep d (maybeSpawnFirst g)) with hgp
    refine ⟨?_, ?_, ?_, ?_, ?_⟩
    · rw [checkCollisions_width, pipesStep_width, hwidth2]
      exact hw
    · rw [checkCollisions_bird, pipesStep_bird, checkCollisions_width, pipesStep_width,
        hwidth2, hbx2]
      exact hbx
    · rw [Spaced, checkCollisions_pipes, pipesStep_pipes]
      refine List.Pairwise.sublist (List.filter_sublist _) ?_
      refine List.pairwise_map.mpr (hsp2.imp ?_)
      intro a b hab
      dsimp [movedPipe]
      linarith
    · rw [checkCollisions_pipes, pipesStep_pipes, checkCollisions_bird, pipesStep_bird]
      intro p2 hp2 hpass
      have hp3 := (List.mem_filter.mp hp2).1
      obtain ⟨p, hpmem, rfl⟩ := List.mem_map.mp hp3
      simp only [movedPipe, Bool.or_eq_false_iff, decide_eq_false_iff_not, not_lt] at hpass
      exact hpass.2
    · have hacc := pipesStep_acc d gp
      have hfl := congrArg ScoreAcc.isNewHighScore hacc
      have hsc := congrArg ScoreAcc.score hacc
      have hhs := congrArg ScoreAcc.highScore hacc
      dsimp only at hfl hsc hhs
      rw [checkCollisions_flag, checkCollisions_score, checkCollisions_highScore]
      intro hff
      rw [hfl] at hff
      rw [hsc, hhs]
      refine crossEffect_iterate_flag_false _ _ ?_ hff
      intro h0
      dsimp only at h0 ⊢
      rw [hsc2, hhs2]
      rw [hfl2] at h0
      exact hfs h0
  · rw [update_not_playing d g hp]
    exact hInv

/-- The invariant is preserved by every primary input. -/
theorem inv_input (g : Game) (hInv : Inv g) : Inv (handleInput g) := by
  obtain ⟨hw, hbx, hsp, hnp, hfs⟩ := hInv
  cases hgs : g.gameState with
  | splash =>
    simp only [handleInput, hgs]
    exact ⟨hw, hbx, hsp, hnp, hfs⟩
  | start =>
    simp only [handleInput, hgs]
    exact ⟨hw, hbx, hsp, hnp, hfs⟩
  | playing =>
    simp only [handleInput, hgs]
    exact ⟨hw, hbx, hsp, hnp, hfs⟩
  | gameover =>
    simp only [handleInput, hgs]
    refine ⟨hw, rfl, List.Pairwise.nil, ?_, ?_⟩
    · intro p hp
      simp [resetGame] at hp
    · intro
      exact Nat.zero_le _

/-- Every reachable state satisfies the invariant. -/
theorem reachable_inv (g : Game) (h : Reachable g) : Inv g := by
  induction h with
  | init w h hs rands hw =>
    refine ⟨hw, rfl, List.Pairwise.nil, ?_, ?_⟩
    · intro p hp
      simp [initGame, resetGame] at hp
    · intro
      exact Nat.zero_le _
  | step g op _ ih =>
    cases op with
    | update d => exact inv_update d g ih
    | input => exact inv_input g ih

/-! Velocity and high score step lemmas. -/

theorem handleInput_velocity (g : Game) :
    (handleInput g).bird.velocity = g.bird.velocity ∨
    (handleInput g).bird.velocity = FLAP_STRENGTH ∨
    (handleInput g).bird.velocity = 0 := by
  cases hgs : g.gameState <;> simp [handleInput, hgs, resetGame]

theorem step_velocity_le (g : Game) (op : Op) (h : g.bird.velocity ≤ MAX_FALL_SPEED) :
    (Ashlee.step g op).bird.velocity ≤ MAX_FALL_SPEED := by
  cases op with
  | input =>
    show (handleInput g).bird.velocity ≤ _
    rcases handleInput_velocity g with h2 | h2 | h2 <;> rw [h2]
    · exact h
    · norm_num [FLAP_STRENGTH, MAX_FALL_SPEED]
    · norm_num [MAX_FALL_SPEED]
  | update d =>
    show (update d g).bird.velocity ≤ _
    by_cases hp : g.gameState = .playing
    · rw [update_playing d g hp, checkCollisions_bird, pipesStep_bird, maybeSpawn_bird,
        physicsStep_velocity]
      exact min_le_right _ _
    · rw [update_not_playing d g hp]
      exact h

theorem run_velocity_le (g : Game) (ops : List Op) (h : g.bird.velocity ≤ MAX_FALL_SPEED) :
    (run g ops).bird.velocity ≤ MAX_FALL_SPEED := by
  induction ops generalizing g with
  | nil => exact h
  | cons op rest ih => exact ih (Ashlee.step g op) (step_velocity_le g op h)

theorem handleInput_highScore (g : Game) : (handleInput g).highScore = g.highScore := by
  cases hgs : g.gameState <;> simp [handleInput, hgs, resetGame]

theorem update_highScore_le (d : ℚ) (g : Game) : g.highScore ≤ (update d g).highScore := by
  by_cases hp : g.gameState = .playing
  · rw [update_playing d g hp, checkCollisions_highScore]
    set gp := maybeSpawn (physicsStep d (maybeSpawnFirst g)) with hgp
    have hhs := congrArg ScoreAcc.highScore (pipesStep_acc d gp)
    dsimp only at hhs
    rw [hhs]
    obtain ⟨-, -, -, hhs2, -, -⟩ := preSpawn_fields d g
    exact le_trans hhs2.ge
      (crossEffect_iterate_highScore_le (gp.pipes.countP (crossesB gp.bird.x (dtOf d)))
        ⟨gp.score, gp.highScore, gp.isNewHighScore, gp.storeWrites⟩)
  · rw [update_not_playing d g hp]

theorem step_highScore_le (g : Game) (op : Op) :
    g.highScore ≤ (Ashlee.step g op).highScore := by
  cases op with
  | input => exact (handleInput_highScore g).symm.le
  | update d => exact update_highScore_le d g

theorem dtOf_nonneg (d : ℚ) (hd : 0 ≤ d) : 0 ≤ dtOf d :=
  div_nonneg (le_min hd (by norm_num)) (by norm_num [FRAME_TIME, TARGET_FPS])

theorem step_velocity_bounds (g : Game) (op : Op)
    (hop : ∀ e, op = Op.update e → 0 ≤ e)
    (h : FLAP_STRENGTH ≤ g.bird.velocity ∧ g.bird.velocity ≤ MAX_FALL_SPEED) :
    FLAP_STRENGTH ≤ (Ashlee.step g op).bird.velocity ∧
    (Ashlee.step g op).bird.velocity ≤ MAX_FALL_SPEED := by
  cases op with
  | input =>
    show FLAP_STRENGTH ≤ (handleInput g).bird.velocity ∧
      (handleInput g).bird.velocity ≤ MAX_FALL_SPEED
    rcases handleInput_velocity g with h2 | h2 | h2 <;> rw [h2]
    · exact h
    · norm_num [FLAP_STRENGTH, MAX_FALL_SPEED]
    · norm_num [FLAP_STRENGTH, MAX_FALL_SPEED]
  | update e =>
    have he : 0 ≤ e := hop e rfl
    show FLAP_STRENGTH ≤ (update e g).bird.velocity ∧
      (update e g).bird.velocity ≤ MAX_FALL_SPEED
    by_cases hp : g.gameState = .playing
    · rw [update_playing e g hp, checkCollisions_bird, pipesStep_bird, maybeSpawn_bird,
        physicsStep_velocity, maybeSpawnFirst_bird]
      constructor
      · apply le_min
        · have hdt := dtOf_nonneg e he
          have hG : (0:ℚ) ≤ GRAVITY := by norm_num [GRAVITY]
          have := mul_nonneg hG hdt
          linarith [h.1]
        · norm_num [FLAP_STRENGTH, MAX_FALL_SPEED]
      · exact min_le_right _ _
    · rw [update_not_playing e g hp]
      exact h

theorem run_velocity_bounds (g : Game) (ops : List Op)
    (hops : ∀ e, Op.update e ∈ ops → 0 ≤ e)
    (h : FLAP_STRENGTH ≤ g.bird.velocity ∧ g.bird.velocity ≤ MAX_FALL_SPEED) :
    FLAP_STRENGTH ≤ (run g ops).bird.velocity ∧
    (run g ops).bird.velocity ≤ MAX_FALL_SPEED := by
  induction ops generalizing g with
  | nil => exact h
  | cons op rest ih =>
    refine ih (Ashlee.step g op) (fun e he => hops e (List.mem_cons_of_mem op he)) ?_
    refine step_velocity_bounds g op (fun e hoe => hops e ?_) h
    rw [← hoe]
    exact List.mem_cons_self op rest

/-! Claim theorems. -/

/-- C4: after every update call, regardless of the elapsed-time value
supplied or the number of ticks performed, the bird velocity is at most
MAX_FALL_SPEED (10). Stated as an invariant of every state reachable from
the initial one by any operation sequence, elapsed times unrestricted. -/
theorem c4_velocity_le_max (w h : ℚ) (storedHS : ℕ) (rands : List ℚ) (ops : List Op) :
    (run (initGame w h storedHS rands) ops).bird.velocity ≤ MAX_FALL_SPEED := by
  refine run_velocity_le _ ops ?_
  show (0:ℚ) ≤ MAX_FALL_SPEED
  norm_num [MAX_FALL_SPEED]

/-- C6: across any sequence of operations within one process lifetime
(updates, inputs, any number of rounds), the high score never decreases. -/
theorem c6_high_score_monotone (g : Game) (ops : List Op) :
    g.highScore ≤ (run g ops).highScore := by
  induction ops generalizing g with
  | nil => exact Nat.le_refl _
  | cons op rest ih =>
    exact Nat.le_trans (step_highScore_le g op) (ih (Ashlee.step g op))

/-- C8: a primary input in the gameover phase resets the bird position and
velocity, the pipe list, the score and the new-high-score flag, leaves the
high score unchanged, and moves the phase to start (ready), not playing. -/
theorem c8_restart_resets (g : Game) (h : g.gameState = .gameover) :
    (handleInput g).bird =
      { x := g.width * (1/5), y := g.height / 2, velocity := 0, rotation := 0 } ∧
    (handleInput g).pipes = [] ∧
    (handleInput g).score = 0 ∧
    (handleInput g).isNewHighScore = false ∧
    (handleInput g).highScore = g.highScore ∧
    (handleInput g).gameState = .start := by
  simp [handleInput, h, resetGame]

/-- Witness for C8 at a concrete gameover state. -/
def gW8 : Game :=
  { width := 400, height := 600
    bird := { x := 80, y := 555, velocity := 4, rotation := 16 }
    pipes := [{ x := 120, topHeight := 200, passed := true }]
    score := 3, highScore := 7
    gameState := .gameover, isNewHighScore := false
    rands := [], storeWrites := [] }

theorem c8_restart_resets_w :
    gW8.gameState = .gameover ∧
    ((handleInput gW8).bird =
      { x := gW8.width * (1/5), y := gW8.height / 2, velocity := 0, rotation := 0 } ∧
    (handleInput gW8).pipes = [] ∧
    (handleInput gW8).score = 0 ∧
    (handleInput gW8).isNewHighScore = false ∧
    (handleInput gW8).highScore = gW8.highScore ∧
    (handleInput gW8).gameState = .start) :=
  ⟨rfl, c8_restart_resets gW8 rfl⟩

theorem gapTop_bounds (hgt r : ℚ) (h0 : 0 ≤ r) (h1 : r < 1) (hh : 365 ≤ hgt) :
    80 ≤ r * (hgt - 80 - PIPE_GAP - 80 - 80) + 80 ∧
    r * (hgt - 80 - PIPE_GAP - 80 - 80) + 80 ≤ hgt - 80 - PIPE_GAP - 80 := by
  rw [PIPE_GAP]
  constructor
  · nlinarith
  · nlinarith

/-- C9: for every spawned obstacle (spawnPipe and spawnFirstPipe alike)
and every random value in the interval from 0 inclusive to 1 exclusive,
the gap top height lies in the closed interval from the 80 pixel margin to
screen height minus ground offset (80) minus gap size (125) minus margin
(80), provided the screen is tall enough for that interval to be
non-empty. -/
theorem c9_gap_top_bounds (g : Game) (r : ℚ) (hr : g.rands.headD 0 = r)
    (h0 : 0 ≤ r) (h1 : r < 1) (hh : 365 ≤ g.height) :
    (∃ p : Pipe, (spawnPipe g).pipes = g.pipes ++ [p] ∧
      80 ≤ p.topHeight ∧ p.topHeight ≤ g.height - 80 - PIPE_GAP - 80) ∧
    (∃ p : Pipe, (spawnFirstPipe g).pipes = g.pipes ++ [p] ∧
      80 ≤ p.topHeight ∧ p.topHeight ≤ g.height - 80 - PIPE_GAP - 80) := by
  obtain ⟨hl, hu⟩ := gapTop_bounds g.height r h0 h1 hh
  constructor
  · refine ⟨_, rfl, ?_, ?_⟩
    · show 80 ≤ g.rands.headD 0 * (g.height - 80 - PIPE_GAP - 80 - 80) + 80
      rw [hr]
      exact hl
    · show g.rands.headD 0 * (g.height - 80 - PIPE_GAP - 80 - 80) + 80 ≤
        g.height - 80 - PIPE_GAP - 80
      rw [hr]
      exact hu
  · refine ⟨_, rfl, ?_, ?_⟩
    · show 80 ≤ g.rands.headD 0 * (g.height - 80 - PIPE_GAP - 80 - 80) + 80
      rw [hr]
      exact hl
    · show g.rands.headD 0 * (g.height - 80 - PIPE_GAP - 80 - 80) + 80 ≤
        g.height - 80 - PIPE_GAP - 80
      rw [hr]
      exact hu

/-- Witness input for C9. -/
def gW9 : Game :=
  { width := 400, height := 600
    bird := { x := 80, y := 300, velocity := 0, rotation := 0 }
    pipes := [], score := 0, highScore := 0
    gameState := .playing, isNewHighScore := false
    rands := [1/2], storeWrites := [] }

theorem c9_gap_top_bounds_w :
    gW9.rands.headD 0 = 1/2 ∧ (0:ℚ) ≤ 1/2 ∧ (1:ℚ)/2 < 1 ∧ (365:ℚ) ≤ gW9.height ∧
    ((∃ p : Pipe, (spawnPipe gW9).pipes = gW9.pipes ++ [p] ∧
      80 ≤ p.topHeight ∧ p.topHeight ≤ gW9.height - 80 - PIPE_GAP - 80) ∧
    (∃ p : Pipe, (spawnFirstPipe gW9).pipes = gW9.pipes ++ [p] ∧
      80 ≤ p.topHeight ∧ p.topHeight ≤ gW9.height - 80 - PIPE_GAP - 80)) :=
  ⟨rfl, by norm_num, by norm_num, by norm_num [gW9],
    c9_gap_top_bounds gW9 (1/2) rfl (by norm_num) (by norm_num) (by norm_num [gW9])⟩

/-- C10: provided every elapsed-time delta passed to update is
non-negative, the bird velocity always stays in the closed interval from
FLAP_STRENGTH (-7.5) to MAX_FALL_SPEED (10), in every phase. -/
theorem c10_velocity_interval (w h : ℚ) (storedHS : ℕ) (rands : List ℚ) (ops : List Op)
    (hops : ∀ e, Op.update e ∈ ops → 0 ≤ e) :
    FLAP_STRENGTH ≤ (run (initGame w h storedHS rands) ops).bird.velocity ∧
    (run (initGame w h storedHS rands) ops).bird.velocity ≤ MAX_FALL_SPEED := by
  refine run_velocity_bounds _ ops hops ?_
  show FLAP_STRENGTH ≤ (0:ℚ) ∧ (0:ℚ) ≤ MAX_FALL_SPEED
  norm_num [FLAP_STRENGTH, MAX_FALL_SPEED]

/-- C1 (amended): each playing-phase update integrates the position with
the post-clamp velocity times that ticks own scale factor, the closed
per-tick form; the result therefore depends on how elapsed time is split
into ticks (see the counterexample), it is not granularity independent. -/
theorem c1_per_tick_integration (g : Game) (d : ℚ) (h : g.gameState = .playing) :
    (update d g).bird.y =
      g.bird.y +
        min (g.bird.velocity + GRAVITY * (min d 100 / FRAME_TIME)) MAX_FALL_SPEED *
          (min d 100 / FRAME_TIME) := by
  rw [update_playing d g h, checkCollisions_bird, pipesStep_bird, maybeSpawn_bird,
    physicsStep_y, maybeSpawnFirst_bird]
  rfl

/-- Counterexample input for C1: a playing state on a very tall canvas so
that no collision interferes, bird at rest. -/
def gC1 : Game :=
  { width := 400, height := 10000
    bird := { x := 80, y := 5000, velocity := 0, rotation := 0 }
    pipes := [], score := 0, highScore := 0
    gameState := .playing, isNewHighScore := false
    rands := [1/2, 1/2, 1/2, 1/2], storeWrites := [] }

/-- C1 counterexample: one tick of 100 ms lands the bird at y 5019.8
while two ticks of 50 ms land it at 5014.85, a difference of 99/20 =
4.95 pixels, far beyond floating-point tolerance, with both runs still in
the playing phase; the final position depends on the tick split. -/
theorem c1_cex_tick_split :
    (run gC1 [Op.update 100]).bird.y = 25099/5 ∧
    (run gC1 [Op.update 50, Op.update 50]).bird.y = 100297/20 ∧
    (run gC1 [Op.update 100]).bird.y -
      (run gC1 [Op.update 50, Op.update 50]).bird.y = 99/20 ∧
    (run gC1 [Op.update 100]).gameState = .playing ∧
    (run gC1 [Op.update 50, Op.update 50]).gameState = .playing := by
  norm_num [run, step, update, gC1, checkCollisions, collides, pipesStep, maybeSpawn,
    maybeSpawnFirst, physicsStep, spawnFirstPipe, spawnPipe, processPipes,
    scorePipe, shouldSpawn, dtOf, groundY, FRAME_TIME, GRAVITY,
    MAX_FALL_SPEED, PIPE_SPEED, PIPE_GAP, PIPE_WIDTH, PIPE_SPACING, BIRD_SIZE,
    TARGET_FPS, FLAP_STRENGTH]

theorem c1_per_tick_integration_w :
    gC1.gameState = .playing ∧
    (update 100 gC1).bird.y =
      gC1.bird.y +
        min (gC1.bird.velocity + GRAVITY * (min 100 100 / FRAME_TIME)) MAX_FALL_SPEED *
          (min 100 100 / FRAME_TIME) :=
  ⟨rfl, c1_per_tick_integration gC1 100 rfl⟩

/-- Modelled from the claim wording, for comparison with checkCollisions:
collision detection that applies the same 5 pixel inset in the boundary
check as in the pipe check. -/
def checkCollisionsClaim (g : Game) : Game :=
  if (decide (g.bird.y + BIRD_SIZE / 2 - 5 > groundY g) ||
      decide (g.bird.y - BIRD_SIZE / 2 + 5 < 0) ||
      g.pipes.any fun p =>
        decide (g.bird.x + BIRD_SIZE / 2 - 5 > p.x) &&
        decide (g.bird.x - BIRD_SIZE / 2 + 5 < p.x + PIPE_WIDTH) &&
        (decide (g.bird.y - BIRD_SIZE / 2 + 5 < p.topHeight) ||
         decide (g.bird.y + BIRD_SIZE / 2 - 5 > p.topHeight + PIPE_GAP))) then
    { g with gameState := .gameover }
  else g

/-- Counterexample input for C2: bird grazing the ground line within the
5 pixel margin (ground line 520, bird extent 481 to 521, inset extent
486 to 516), no pipes. -/
def gC2 : Game :=
  { width := 400, height := 600
    bird := { x := 80, y := 501, velocity := 0, rotation := 0 }
    pipes := [], score := 0, highScore := 0
    gameState := .playing, isNewHighScore := false
    rands := [], storeWrites := [] }

/-- C2 counterexample: the code ends the round (full-size boundary
check, 501 + 20 exceeds 520) where the claimed inset boundary check
(501 + 20 - 5 at most 520) would not; so the boundary check does not use
the inset hitbox the pipe check uses. -/
theorem c2_cex_boundary_inset :
    (checkCollisions gC2).gameState = .gameover ∧
    (checkCollisionsClaim gC2).gameState = .playing := by
  constructor
  · norm_num [checkCollisions, collides, gC2, groundY, BIRD_SIZE, PIPE_WIDTH, PIPE_GAP]
  · norm_num [checkCollisionsClaim, gC2, groundY, BIRD_SIZE, PIPE_WIDTH, PIPE_GAP]

theorem collides_iff (g : Game) :
    collides g = true ↔
      (groundY g < g.bird.y + BIRD_SIZE / 2 ∨ g.bird.y - BIRD_SIZE / 2 < 0 ∨
       ∃ p ∈ g.pipes, p.x < g.bird.x + BIRD_SIZE / 2 - 5 ∧
         g.bird.x - BIRD_SIZE / 2 + 5 < p.x + PIPE_WIDTH ∧
         (g.bird.y - BIRD_SIZE / 2 + 5 < p.topHeight ∨
          p.topHeight + PIPE_GAP < g.bird.y + BIRD_SIZE / 2 - 5)) := by
  simp [collides, List.any_eq_true, and_assoc, or_assoc]

/-- C2 (amended): in the playing phase the round ends exactly when the
full-size vertical extent (no inset) crosses the ground line or the top,
or the 5 pixel inset hitbox overlaps a pipe outside its gap; the inset
is applied only in the pipe check, not in the boundary check. -/
theorem c2_collision_characterization (g : Game) (h : g.gameState = .playing) :
    (checkCollisions g).gameState = .gameover ↔
      (groundY g < g.bird.y + BIRD_SIZE / 2 ∨ g.bird.y - BIRD_SIZE / 2 < 0 ∨
       ∃ p ∈ g.pipes, p.x < g.bird.x + BIRD_SIZE / 2 - 5 ∧
         g.bird.x - BIRD_SIZE / 2 + 5 < p.x + PIPE_WIDTH ∧
         (g.bird.y - BIRD_SIZE / 2 + 5 < p.topHeight ∨
          p.topHeight + PIPE_GAP < g.bird.y + BIRD_SIZE / 2 - 5)) := by
  unfold checkCollisions
  by_cases hc : collides g = true
  · rw [if_pos hc]
    exact iff_of_true rfl ((collides_iff g).mp hc)
  · rw [if_neg hc]
    refine iff_of_false ?_ fun hr => hc ((collides_iff g).mpr hr)
    rw [h]
    exact fun hcon => GameState.noConfusion hcon

theorem c2_collision_characterization_w :
    gC2.gameState = .playing ∧
    ((checkCollisions gC2).gameState = .gameover ↔
      (groundY gC2 < gC2.bird.y + BIRD_SIZE / 2 ∨ gC2.bird.y - BIRD_SIZE / 2 < 0 ∨
       ∃ p ∈ gC2.pipes, p.x < gC2.bird.x + BIRD_SIZE / 2 - 5 ∧
         gC2.bird.x - BIRD_SIZE / 2 + 5 < p.x + PIPE_WIDTH ∧
         (gC2.bird.y - BIRD_SIZE / 2 + 5 < p.topHeight ∨
          p.topHeight + PIPE_GAP < gC2.bird.y + BIRD_SIZE / 2 - 5))) :=
  ⟨rfl, c2_collision_characterization gC2 rfl⟩

/-- C3 (amended): the elapsed-time argument is clamped above at 100 ms
but not below: the velocity after a playing-phase update is exactly the
clamped formula for every delta, negative deltas included, so invalid
negative elapsed times do propagate instead of being clamped to 0. -/
theorem c3_velocity_formula (g : Game) (d : ℚ) (h : g.gameState = .playing) :
    (update d g).bird.velocity =
      min (g.bird.velocity + GRAVITY * (min d 100 / FRAME_TIME)) MAX_FALL_SPEED := by
  rw [update_playing d g h, checkCollisions_bird, pipesStep_bird, maybeSpawn_bird,
    physicsStep_velocity, maybeSpawnFirst_bird]
  rfl

/-- Counterexample input for C3: a playing state with the bird at rest. -/
def gC3 : Game :=
  { width := 400, height := 600
    bird := { x := 80, y := 300, velocity := 0, rotation := 0 }
    pipes := [], score := 0, highScore := 0
    gameState := .playing, isNewHighScore := false
    rands := [], storeWrites := [] }

/-- C3 counterexample: an update call with elapsed time -1000 from a
zero-velocity playing state leaves the bird with velocity -33 (and moves
its position by 1980), so a negative elapsed time is not clamped to 0
and propagates into velocity and position. -/
theorem c3_cex_negative_delta :
    gC3.bird.velocity = 0 ∧
    (update (-1000) gC3).bird.velocity = -33 ∧
    (update (-1000) gC3).bird.y = 2280 := by
  refine ⟨rfl, ?_, ?_⟩ <;>
    norm_num [update, gC3, checkCollisions, collides, pipesStep, maybeSpawn,
      maybeSpawnFirst, physicsStep, spawnFirstPipe, spawnPipe, processPipes,
      scorePipe, shouldSpawn, dtOf, groundY, FRAME_TIME, GRAVITY,
      MAX_FALL_SPEED, PIPE_SPEED, PIPE_GAP, PIPE_WIDTH, PIPE_SPACING, BIRD_SIZE,
      TARGET_FPS, FLAP_STRENGTH]

theorem c3_velocity_formula_w :
    gC3.gameState = .playing ∧
    (update (-1000) gC3).bird.velocity =
      min (gC3.bird.velocity + GRAVITY * (min (-1000) 100 / FRAME_TIME)) MAX_FALL_SPEED :=
  ⟨rfl, c3_velocity_formula gC3 (-1000) rfl⟩

/-- C5: in one playing-phase update, the score grows by exactly the
number of pipes whose right edge newly scrolled left of the fixed bird x
position this tick (and only unpassed pipes count); the surviving pipe
list is exactly the moved list with the passed flag set as old flag OR
newly crossed (so the flag is set at the crossing moment and, being an
OR, is never reset); a flap input leaves the pipes untouched. The pipe
list the loop runs over is the one after the two spawn sites. -/
theorem c5_score_once_per_pipe (g : Game) (d : ℚ) (h : g.gameState = .playing) :
    (update d g).score =
      g.score + (maybeSpawn (physicsStep d (maybeSpawnFirst g))).pipes.countP
        (crossesB g.bird.x (dtOf d)) ∧
    (update d g).pipes =
      ((maybeSpawn (physicsStep d (maybeSpawnFirst g))).pipes.map
        (movedPipe g.bird.x (dtOf d))).filter keepB ∧
    (∀ p : Pipe, p.passed = true → (movedPipe g.bird.x (dtOf d) p).passed = true) ∧
    (handleInput g).pipes = g.pipes := by
  obtain ⟨hbx2, -, hsc2, -, -, -⟩ := preSpawn_fields d g
  rw [update_playing d g h]
  refine ⟨?_, ?_, ?_, ?_⟩
  · rw [checkCollisions_score]
    have hsc := congrArg ScoreAcc.score
      (pipesStep_acc d (maybeSpawn (physicsStep d (maybeSpawnFirst g))))
    dsimp only at hsc
    rw [hsc, crossEffect_iterate_score]
    dsimp only
    rw [hsc2, hbx2]
  · rw [checkCollisions_pipes, pipesStep_pipes, hbx2]
  · intro p hp
    simp [movedPipe, hp]
  · simp [handleInput, h]

/-- Witness input for C5: one unpassed pipe about to cross the bird. -/
def gW5 : Game :=
  { width := 400, height := 600
    bird := { x := 80, y := 300, velocity := 0, rotation := 0 }
    pipes := [{ x := -10, topHeight := 200, passed := false }]
    score := 0, highScore := 0
    gameState := .playing, isNewHighScore := false
    rands := [1/2], storeWrites := [] }

theorem c5_score_once_per_pipe_w :
    gW5.gameState = .playing ∧
    ((update 100 gW5).score =
      gW5.score + (maybeSpawn (physicsStep 100 (maybeSpawnFirst gW5))).pipes.countP
        (crossesB gW5.bird.x (dtOf 100)) ∧
    (update 100 gW5).pipes =
      ((maybeSpawn (physicsStep 100 (maybeSpawnFirst gW5))).pipes.map
        (movedPipe gW5.bird.x (dtOf 100))).filter keepB ∧
    (∀ p : Pipe, p.passed = true → (movedPipe gW5.bird.x (dtOf 100) p).passed = true) ∧
    (handleInput gW5).pipes = gW5.pipes) :=
  ⟨rfl, c5_score_once_per_pipe gW5 100 rfl⟩

/-- C7: along any reachable state, over one update call: the
new-high-score flag never drops back from true; from a false flag it
turns true exactly when the new score exceeds the high score held before
the call (which, while the flag is down, is still the high score from
before the round, see the invariant); on the tick it turns true the high
score becomes the new score and exactly one value, that score, is
appended to the persisted writes; while the flag stays false the high
score and the persisted writes are untouched. -/
theorem c7_new_high_score_flag (g : Game) (d : ℚ) (hre : Reachable g) :
    (g.isNewHighScore = true → (update d g).isNewHighScore = true) ∧
    (g.isNewHighScore = false →
      ((update d g).isNewHighScore = true ↔ g.highScore < (update d g).score)) ∧
    (g.isNewHighScore = false → (update d g).isNewHighScore = true →
      (update d g).highScore = (update d g).score ∧
      (update d g).storeWrites = g.storeWrites ++ [(update d g).score]) ∧
    (g.isNewHighScore = false → (update d g).isNewHighScore = false →
      (update d g).highScore = g.highScore ∧
      (update d g).storeWrites = g.storeWrites) := by
  have hInv := reachable_inv g hre
  by_cases hp : g.gameState = .playing
  case neg =>
    rw [update_not_playing d g hp]
    obtain ⟨-, -, -, -, hfs⟩ := hInv
    refine ⟨fun h2 => h2, ?_, ?_, ?_⟩
    · intro hf
      rw [hf]
      constructor
      · intro hcon
        exact absurd hcon Bool.false_ne_true
      · intro hlt
        exact absurd hlt (Nat.not_lt.mpr (hfs hf))
    · intro hf hft
      rw [hf] at hft
      exact absurd hft Bool.false_ne_true
    · intro _ _
      exact ⟨rfl, rfl⟩
  case pos =>
    rw [update_playing d g hp]
    obtain ⟨hbx2, hw2, hsc2, hhs2, hfl2, hwr2⟩ := preSpawn_fields d g
    obtain ⟨hsp2, hnp2⟩ := inv_pre_loop d g hInv
    obtain ⟨hw, hbx, -, -, hfs⟩ := hInv
    set gp := maybeSpawn (physicsStep d (maybeSpawnFirst g)) with hgp
    have hacc := pipesStep_acc d gp
    set k := gp.pipes.countP (crossesB gp.bird.x (dtOf d)) with hk
    have Hfl : (checkCollisions (pipesStep d gp)).isNewHighScore =
        (crossEffect^[k]
          (⟨gp.score, gp.highScore, gp.isNewHighScore, gp.storeWrites⟩ : ScoreAcc)).isNewHighScore := by
      rw [checkCollisions_flag]
      exact congrArg ScoreAcc.isNewHighScore hacc
    have Hsc : (checkCollisions (pipesStep d gp)).score =
        (crossEffect^[k]
          (⟨gp.score, gp.highScore, gp.isNewHighScore, gp.storeWrites⟩ : ScoreAcc)).score := by
      rw [checkCollisions_score]
      exact congrArg ScoreAcc.score hacc
    have Hhs : (checkCollisions (pipesStep d gp)).highScore =
        (crossEffect^[k]
          (⟨gp.score, gp.highScore, gp.isNewHighScore, gp.storeWrites⟩ : ScoreAcc)).highScore := by
      rw [checkCollisions_highScore]
      exact congrArg ScoreAcc.highScore hacc
    have Hwr : (checkCollisions (pipesStep d gp)).storeWrites =
        (crossEffect^[k]
          (⟨gp.score, gp.highScore, gp.isNewHighScore, gp.storeWrites⟩ : ScoreAcc)).storeWrites := by
      rw [checkCollisions_writes]
      exact congrArg ScoreAcc.storeWrites hacc
    have hk1 : k ≤ 1 := by
      rw [hk]
      refine countP_crossers_le_one gp.bird.x (dtOf d) gp.pipes (dtOf_le_six d) hsp2 ?_
      intro p hpm hpass
      rw [hbx2]
      exact hnp2 p hpm hpass
    have hk01 : k = 0 ∨ k = 1 := by omega
    rcases hk01 with hk0 | hk1'
    · rw [hk0] at Hfl Hsc Hhs Hwr
      simp only [Function.iterate_zero, id_eq] at Hfl Hsc Hhs Hwr
      rw [hfl2] at Hfl
      rw [hsc2] at Hsc
      rw [hhs2] at Hhs
      rw [hwr2] at Hwr
      refine ⟨?_, ?_, ?_, ?_⟩
      · intro h2
        rw [Hfl]
        exact h2
      · intro hf
        rw [Hfl, hf, Hsc]
        constructor
        · intro hcon
          exact absurd hcon Bool.false_ne_true
        · intro hlt
          exact absurd hlt (Nat.not_lt.mpr (hfs hf))
      · intro hf hft
        rw [Hfl, hf] at hft
        exact absurd hft Bool.false_ne_true
      · intro _ _
        exact ⟨Hhs, Hwr⟩
    · rw [hk1'] at Hfl Hsc Hhs Hwr
      simp only [Function.iterate_one] at Hfl Hsc Hhs Hwr
      by_cases hgt : gp.score + 1 > gp.highScore
      · have hce : crossEffect ⟨gp.score, gp.highScore, gp.isNewHighScore, gp.storeWrites⟩ =
            ⟨gp.score + 1, gp.score + 1, true, gp.storeWrites ++ [gp.score + 1]⟩ := by
          unfold crossEffect
          rw [if_pos hgt]
        rw [hce] at Hfl Hsc Hhs Hwr
        dsimp only at Hfl Hsc Hhs Hwr
        rw [hsc2] at Hsc Hhs Hwr
        rw [hwr2] at Hwr
        rw [hsc2, hhs2] at hgt
        refine ⟨?_, ?_, ?_, ?_⟩
        · intro _
          exact Hfl
        · intro hf
          rw [Hfl, Hsc]
          exact ⟨fun _ => hgt, fun _ => rfl⟩
        · intro hf _
          constructor
          · rw [Hhs, Hsc]
          · rw [Hwr, Hsc]
        · intro _ hff
          rw [Hfl] at hff
          exact Bool.noConfusion hff
      · have hce : crossEffect ⟨gp.score, gp.highScore, gp.isNewHighScore, gp.storeWrites⟩ =
            ⟨gp.score + 1, gp.highScore, gp.isNewHighScore, gp.storeWrites⟩ := by
          unfold crossEffect
          rw [if_neg hgt]
        rw [hce] at Hfl Hsc Hhs Hwr
        dsimp only at Hfl Hsc Hhs Hwr
        rw [hfl2] at Hfl
        rw [hsc2] at Hsc
        rw [hhs2] at Hhs
        rw [hwr2] at Hwr
        rw [hsc2, hhs2] at hgt
        refine ⟨?_, ?_, ?_, ?_⟩
        · intro h2
          rw [Hfl]
          exact h2
        · intro hf
          rw [Hfl, hf, Hsc]
          exact ⟨fun hcon => absurd hcon Bool.false_ne_true, fun hlt => absurd hlt hgt⟩
        · intro hf hft
          rw [Hfl, hf] at hft
          exact absurd hft Bool.false_ne_true
        · intro _ _
          exact ⟨Hhs, Hwr⟩

theorem c7_new_high_score_flag_w :
    ((initGame 400 600 0 []).isNewHighScore = true →
      (update 16 (initGame 400 600 0 [])).isNewHighScore = true) ∧
    ((initGame 400 600 0 []).isNewHighScore = false →
      ((update 16 (initGame 400 600 0 [])).isNewHighScore = true ↔
        (initGame 400 600 0 []).highScore < (update 16 (initGame 400 600 0 [])).score)) ∧
    ((initGame 400 600 0 []).isNewHighScore = false →
      (update 16 (initGame 400 600 0 [])).isNewHighScore = true →
      (update 16 (initGame 400 600 0 [])).highScore =
        (update 16 (initGame 400 600 0 [])).score ∧
      (update 16 (initGame 400 600 0 [])).storeWrites =
        (initGame 400 600 0 []).storeWrites ++ [(update 16 (initGame 400 600 0 [])).score]) ∧
    ((initGame 400 600 0 []).isNewHighScore = false →
      (update 16 (initGame 400 600 0 [])).isNewHighScore = false →
      (update 16 (initGame 400 600 0 [])).highScore = (initGame 400 600 0 []).highScore ∧
      (update 16 (initGame 400 600 0 [])).storeWrites =
        (initGame 400 600 0 []).storeWrites) :=
  c7_new_high_score_flag (initGame 400 600 0 []) 16
    (Reachable.init 400 600 0 [] (by norm_num))

theorem c10_velocity_interval_w :
    (∀ e, Op.update e ∈ [Op.input, Op.update 16] → 0 ≤ e) ∧
    (FLAP_STRENGTH ≤ (run (initGame 400 600 0 []) [Op.input, Op.update 16]).bird.velocity ∧
    (run (initGame 400 600 0 []) [Op.input, Op.update 16]).bird.velocity ≤ MAX_FALL_SPEED) := by
  have hop : ∀ e, Op.update e ∈ [Op.input, Op.update 16] → 0 ≤ e := by
    intro e he
    rcases List.mem_cons.mp he with h | h
    · simp at h
    · simp only [List.mem_singleton, Op.update.injEq] at h
      rw [h]
      norm_num
  exact ⟨hop, c10_velocity_interval 400 600 0 [] [Op.input, Op.update 16] hop⟩

end Ashlee
